import Mathlib

/-!
Shallow embedding of the session registry and relay router of
`src/server.js` (a WebSocket signaling server for P2P file sharing).

Modelling choices:
* An endpoint (a `ws` WebSocket object) is identified by a `Nat`; the JS
  identity comparison `===` between sockets becomes equality of ids.
* The socket's `readyState === WebSocket.OPEN` test is modelled by an
  environment function `rs : Nat → Bool` (`true` = OPEN) passed to the
  handlers that consult it.  Handlers that never read `readyState` in the
  source do not receive `rs`.
* The global `sessions` JavaScript `Map` is modelled as an association
  list `List (String × Session)` in insertion order, with `mapGet`,
  `mapSet`, `mapHas` mirroring `Map.get` / `Map.set` / `Map.has`
  (a `Map.set` on a fresh key appends; on an existing key it updates in
  place, preserving iteration order, which is what the in-place object
  mutation `session.receiver = ws` amounts to).
* `ws.send(JSON.stringify(msg))` becomes appending the pair
  `(destination id, msg)` to the list of emitted sends; each handler
  returns the new registry together with the sends it performed, in order.
* `Date.now()` values are integers (`Int`).
-/

/-- A session record, mirroring the object stored by `handleCreateSession`:
`{ sender: ws, receiver: null, fileName, fileSize, created: Date.now() }`. -/
structure Session where
  sender : Nat
  receiver : Option Nat
  fileName : String
  fileSize : Nat
  created : Int
deriving DecidableEq, Repr

/-- The signaling-message kinds relayed verbatim (`offer`, `answer`,
`ice-candidate`). -/
inductive SigType where
  | offer
  | answer
  | iceCandidate
deriving DecidableEq, Repr

/-- An inbound signaling record: its `type` tag, its `pin`, and the rest of
the JSON record, opaque to the router (`sdp`, `candidate`, ...). -/
structure SigMsg where
  type : SigType
  pin : String
  payload : String
deriving DecidableEq, Repr

/-- An outbound message produced by the router, one constructor per
`JSON.stringify({type: ...})` shape in the source. -/
inductive OutMsg where
  | sessionCreated (pin fileName : String) (fileSize : Nat)
  | pinTaken
  | sessionJoined (fileName : String) (fileSize : Nat)
  | receiverJoined (fileName : String) (fileSize : Nat)
  | sessionNotFound
  | sessionFull
  | forwarded (m : SigMsg)
deriving DecidableEq, Repr

/-- The `sessions` map: pin → session, in `Map` iteration (insertion)
order. -/
abbrev SessionMap := List (String × Session)

/-- `sessions.get(pin)`: first entry with the given key, if any. -/
def mapGet (pin : String) : SessionMap → Option Session
  | [] => none
  | (p, s) :: rest => if pin = p then some s else mapGet pin rest

/-- `sessions.has(pin)`. -/
def mapHas (pin : String) (m : SessionMap) : Bool :=
  (mapGet pin m).isSome

/-- `sessions.set(pin, s)`: update in place if the key exists, else append
(JavaScript `Map` keeps insertion order). -/
def mapSet (pin : String) (s : Session) : SessionMap → SessionMap
  | [] => [(pin, s)]
  | (p, t) :: rest =>
    if pin = p then (p, s) :: rest else (p, t) :: mapSet pin s rest

/-- A send event: destination endpoint id and the message sent to it. -/
abbrev Send := Nat × OutMsg

/-- `handleCreateSession(ws, data)` of `server.js`: reply `pin-taken` if the
pin is in use, else insert `{sender: ws, receiver: null, fileName, fileSize,
created: now}` and reply `session-created` echoing pin and metadata.  Both
replies are sent with no `readyState` check, as in the source. -/
def handleCreateSession (ws : Nat) (pin fileName : String) (fileSize : Nat)
    (now : Int) (sessions : SessionMap) : SessionMap × List Send :=
  if mapHas pin sessions then
    (sessions, [(ws, OutMsg.pinTaken)])
  else
    (mapSet pin (Session.mk ws none fileName fileSize now) sessions,
      [(ws, OutMsg.sessionCreated pin fileName fileSize)])

/-- `handleJoinSession(ws, data)` of `server.js`: `session-not-found` if the
pin is unknown, `session-full` if `session.receiver` is set, else bind the
joiner as receiver, notify the sender with `receiver-joined` only when
`session.sender.readyState === WebSocket.OPEN`, and confirm to the joiner
with `session-joined` (no `readyState` check on the joiner). -/
def handleJoinSession (rs : Nat → Bool) (ws : Nat) (pin : String)
    (sessions : SessionMap) : SessionMap × List Send :=
  match mapGet pin sessions with
  | none => (sessions, [(ws, OutMsg.sessionNotFound)])
  | some s =>
    match s.receiver with
    | some _ => (sessions, [(ws, OutMsg.sessionFull)])
    | none =>
      (mapSet pin (Session.mk s.sender (some ws) s.fileName s.fileSize s.created) sessions,
        (if rs s.sender then
          [(s.sender, OutMsg.receiverJoined s.fileName s.fileSize)]
        else []) ++
        [(ws, OutMsg.sessionJoined s.fileName s.fileSize)])

/-- `handleSignalingMessage(ws, data)` of `server.js`: `session-not-found`
to the sender if the pin is unknown (no `readyState` check); otherwise
resolve the opposite endpoint (`sender → receiver`, `receiver → sender`,
anyone else → none) and forward the entire original record to it only when
it exists and its channel is OPEN, else silently drop. -/
def handleSignalingMessage (rs : Nat → Bool) (ws : Nat) (m : SigMsg)
    (sessions : SessionMap) : SessionMap × List Send :=
  match mapGet m.pin sessions with
  | none => (sessions, [(ws, OutMsg.sessionNotFound)])
  | some s =>
    let targetWs : Option Nat :=
      if s.sender = ws then s.receiver
      else if s.receiver = some ws then some s.sender
      else none
    match targetWs with
    | some t =>
      if rs t then (sessions, [(t, OutMsg.forwarded m)]) else (sessions, [])
    | none => (sessions, [])

/-- The `ws.on('close')` handler of `server.js`: scan the registry in
iteration order, delete the first session whose `sender` or `receiver` is
this socket, then `break`. -/
def handleClose (ws : Nat) : SessionMap → SessionMap
  | [] => []
  | (p, s) :: rest =>
    if s.sender = ws ∨ s.receiver = some ws then rest
    else (p, s) :: handleClose ws rest

/-- One pass of the `setInterval` session-cleanup of `server.js`,
parametrised by the max age (the source hard-codes `3600000` ms): delete
every session with `now - session.created > maxAge`. -/
def sweepSessions (maxAge now : Int) (sessions : SessionMap) : SessionMap :=
  sessions.filter (fun ps => ¬ (now - ps.2.created > maxAge))

/-- The max session age hard-coded in the cleanup interval (1 hour in
milliseconds). -/
def maxSessionAge : Int := 3600000

/-- The events that touch the registry: the three message handlers
dispatched by `ws.on('message')`, the `ws.on('close')` cleanup, and a
cleanup-interval sweep. -/
inductive Event where
  | create (ws : Nat) (pin fileName : String) (fileSize : Nat) (now : Int)
  | join (ws : Nat) (pin : String)
  | signal (ws : Nat) (m : SigMsg)
  | close (ws : Nat)
  | sweep (maxAge now : Int)

/-- Run one event against the registry, returning the new registry and the
sends performed. -/
def step (rs : Nat → Bool) (e : Event) (sessions : SessionMap) :
    SessionMap × List Send :=
  match e with
  | Event.create ws pin fileName fileSize now =>
    handleCreateSession ws pin fileName fileSize now sessions
  | Event.join ws pin => handleJoinSession rs ws pin sessions
  | Event.signal ws m => handleSignalingMessage rs ws m sessions
  | Event.close ws => (handleClose ws sessions, [])
  | Event.sweep maxAge now => (sweepSessions maxAge now sessions, [])

/-- True when the session binds the endpoint as sender or receiver — the
scan condition of the `close` handler. -/
def boundTo (ws : Nat) (s : Session) : Bool :=
  s.sender = ws || s.receiver = some ws

/-- The keys of the registry in iteration order. -/
def mapKeys (m : SessionMap) : List String :=
  m.map Prod.fst

/-- The sends the source guards with a `readyState === WebSocket.OPEN`
check: the `receiver-joined` notification to the initiator and the
forwarded signaling payloads.  All other sends go straight to the
requesting socket with no check. -/
def isGuardedSend : OutMsg → Bool
  | OutMsg.receiverJoined _ _ => true
  | OutMsg.forwarded _ => true
  | _ => false

theorem mapGet_mapSet_self (pin : String) (s : Session) (m : SessionMap) :
    mapGet pin (mapSet pin s m) = some s := by
  induction m with
  | nil => simp [mapGet, mapSet]
  | cons hd tl ih =>
    obtain ⟨p, t⟩ := hd
    by_cases h : pin = p
    · subst h; simp [mapGet, mapSet]
    · simp [mapGet, mapSet, h, ih]

theorem mapGet_mapSet_ne (q pin : String) (s : Session) (m : SessionMap)
    (h : q ≠ pin) : mapGet q (mapSet pin s m) = mapGet q m := by
  induction m with
  | nil => simp [mapGet, mapSet, h]
  | cons hd tl ih =>
    obtain ⟨p, t⟩ := hd
    by_cases hp : pin = p
    · subst hp
      simp [mapGet, mapSet, h]
    · by_cases hq : q = p
      · subst hq; simp [mapGet, mapSet, hp]
      · simp [mapGet, mapSet, hp, hq, ih]

theorem mapGet_mem (pin : String) (s : Session) (m : SessionMap)
    (h : mapGet pin m = some s) : (pin, s) ∈ m := by
  induction m with
  | nil => simp [mapGet] at h
  | cons hd tl ih =>
    obtain ⟨p, t⟩ := hd
    by_cases hp : pin = p
    · subst hp
      simp [mapGet] at h
      simp [h]
    · simp [mapGet, hp] at h
      exact List.mem_cons_of_mem _ (ih h)

theorem mapGet_eq_none_of_not_mem_keys (pin : String) (m : SessionMap)
    (h : pin ∉ mapKeys m) : mapGet pin m = none := by
  induction m with
  | nil => simp [mapGet]
  | cons hd tl ih =>
    obtain ⟨p, t⟩ := hd
    simp [mapKeys] at h
    simp [mapGet, h.1, ih (by simpa [mapKeys] using h.2)]

theorem mem_keys_of_mapGet (pin : String) (s : Session) (m : SessionMap)
    (h : mapGet pin m = some s) : pin ∈ mapKeys m := by
  by_contra hc
  rw [mapGet_eq_none_of_not_mem_keys pin m hc] at h
  exact Option.noConfusion h

theorem mapKeys_cons (p : String) (t : Session) (tl : SessionMap) :
    mapKeys ((p, t) :: tl) = p :: mapKeys tl := rfl

theorem mapGet_eq_none_of_sublist (pin : String) (l' l : SessionMap)
    (hsub : l'.Sublist l) (h : pin ∉ mapKeys l) : mapGet pin l' = none :=
  mapGet_eq_none_of_not_mem_keys pin l'
    (fun hm => h ((hsub.map Prod.fst).subset hm))

theorem mapGet_filter_nodup (pin : String) (s : Session) (q : String × Session → Bool)
    (m : SessionMap) (hnd : (mapKeys m).Nodup) (h : mapGet pin m = some s) :
    mapGet pin (m.filter q) = if q (pin, s) then some s else none := by
  induction m with
  | nil => simp [mapGet] at h
  | cons hd tl ih =>
    obtain ⟨p, t⟩ := hd
    rw [mapKeys_cons] at hnd
    have hnd' := List.nodup_cons.mp hnd
    by_cases hp : pin = p
    · subst hp
      simp [mapGet] at h
      subst h
      by_cases hq : q (pin, t)
      · simp [List.filter, hq, mapGet]
      · have h0 : mapGet pin (tl.filter q) = none :=
          mapGet_eq_none_of_sublist pin _ tl (List.filter_sublist tl) hnd'.1
        simp [List.filter, hq, h0]
    · simp [mapGet, hp] at h
      have ih2 := ih hnd'.2 h
      by_cases hq : q (p, t)
      · simp [List.filter, hq, mapGet, hp, ih2]
      · simp [List.filter, hq, ih2]

theorem handleClose_sublist (ws : Nat) (m : SessionMap) :
    (handleClose ws m).Sublist m := by
  induction m with
  | nil => simp [handleClose]
  | cons hd tl ih =>
    obtain ⟨p, t⟩ := hd
    by_cases hb : t.sender = ws ∨ t.receiver = some ws
    · simp [handleClose, hb]
    · simpa [handleClose, hb] using ih.cons₂ (p, t)

theorem mapGet_handleClose_or (ws : Nat) (pin : String) (m : SessionMap)
    (hnd : (mapKeys m).Nodup) :
    mapGet pin (handleClose ws m) = mapGet pin m ∨
      mapGet pin (handleClose ws m) = none := by
  induction m with
  | nil => left; rfl
  | cons hd tl ih =>
    obtain ⟨p, t⟩ := hd
    rw [mapKeys_cons] at hnd
    have hnd' := List.nodup_cons.mp hnd
    by_cases hb : t.sender = ws ∨ t.receiver = some ws
    · by_cases hp : pin = p
      · subst hp
        right
        simp only [handleClose, if_pos hb]
        exact mapGet_eq_none_of_not_mem_keys pin tl hnd'.1
      · left
        simp [handleClose, hb, mapGet, hp]
    · by_cases hp : pin = p
      · subst hp
        left
        simp [handleClose, hb, mapGet]
      · rcases ih hnd'.2 with h1 | h1
        · left; simp [handleClose, hb, mapGet, hp, h1]
        · right; simp [handleClose, hb, mapGet, hp, h1]

theorem filter_handleClose (ws : Nat) (m : SessionMap) :
    (handleClose ws m).filter (fun e => boundTo ws e.2) =
      (m.filter (fun e => boundTo ws e.2)).drop 1 := by
  induction m with
  | nil => rfl
  | cons hd tl ih =>
    obtain ⟨p, t⟩ := hd
    by_cases hb : t.sender = ws ∨ t.receiver = some ws
    · have hbt : boundTo ws t = true := by
        simp [boundTo]
        tauto
      simp [handleClose, hb, List.filter, hbt]
    · have hbt : boundTo ws t = false := by
        simp [boundTo]
        tauto
      simp [handleClose, hb, List.filter, hbt, ih]

theorem signal_fst (rs : Nat → Bool) (ws : Nat) (sm : SigMsg) (m : SessionMap) :
    (handleSignalingMessage rs ws sm m).1 = m := by
  unfold handleSignalingMessage
  rcases h : mapGet sm.pin m with _ | s
  · rfl
  · simp only []
    rcases htgt : (if s.sender = ws then s.receiver
      else if s.receiver = some ws then some s.sender else none) with _ | t
    · simp [htgt]
    · simp [htgt]
      by_cases hrs : rs t <;> simp [hrs]

/-- C1: `createSession` inserts a new open session (initiator bound,
responder absent, `createdAt` the current time) if and only if no live
session currently holds the pin; if one does, it replies `pin-taken` and
leaves the registry completely unchanged. -/
theorem c1_createSession_free_iff (ws : Nat) (pin fileName : String)
    (fileSize : Nat) (now : Int) (reg : SessionMap) :
    (mapGet pin reg = none →
      mapGet pin (handleCreateSession ws pin fileName fileSize now reg).1 =
          some (Session.mk ws none fileName fileSize now) ∧
        (∀ q, q ≠ pin →
          mapGet q (handleCreateSession ws pin fileName fileSize now reg).1 =
            mapGet q reg) ∧
        (handleCreateSession ws pin fileName fileSize now reg).2 =
          [(ws, OutMsg.sessionCreated pin fileName fileSize)]) ∧
    (mapGet pin reg ≠ none →
      handleCreateSession ws pin fileName fileSize now reg =
        (reg, [(ws, OutMsg.pinTaken)])) := by
  constructor
  · intro h
    have hh : mapHas pin reg = false := by simp [mapHas, h]
    refine ⟨?_, ?_, ?_⟩
    · simp [handleCreateSession, hh, mapGet_mapSet_self]
    · intro q hq
      simp [handleCreateSession, hh, mapGet_mapSet_ne q pin _ reg hq]
    · simp [handleCreateSession, hh]
  · intro h
    have hh : mapHas pin reg = true := by
      simpa [mapHas, Option.isSome_iff_ne_none] using h
    simp [handleCreateSession, hh]

theorem c1_witness :
    mapGet "p" (handleCreateSession 1 "p" "a.txt" 10 0 []).1 =
        some (Session.mk 1 none "a.txt" 10 0) ∧
      handleCreateSession 2 "p" "b" 5 7 [("p", Session.mk 1 none "a.txt" 10 0)] =
        ([("p", Session.mk 1 none "a.txt" 10 0)], [(2, OutMsg.pinTaken)]) := by
  constructor
  · exact ((c1_createSession_free_iff 1 "p" "a.txt" 10 0 []).1 rfl).1
  · exact (c1_createSession_free_iff 2 "p" "b" 5 7
      [("p", Session.mk 1 none "a.txt" 10 0)]).2 (by simp [mapGet])

/-- C7: an inbound signaling message on an unknown pin gets a
`session-not-found` reply to the sender; if the session exists but the
resolved peer is unavailable — the responder slot still empty for the
initiator, or the peer's channel not open — the message is silently
dropped: nothing is sent to anyone and the registry is unchanged. -/
theorem c7_signaling_error_paths (rs : Nat → Bool) (ws : Nat) (m : SigMsg)
    (reg : SessionMap) :
    (mapGet m.pin reg = none →
      handleSignalingMessage rs ws m reg =
        (reg, [(ws, OutMsg.sessionNotFound)])) ∧
    (∀ s, mapGet m.pin reg = some s →
      ((s.sender = ws ∧ s.receiver = none) ∨
        (s.sender = ws ∧ ∃ t, s.receiver = some t ∧ rs t = false) ∨
        (s.sender ≠ ws ∧ s.receiver = some ws ∧ rs s.sender = false)) →
      handleSignalingMessage rs ws m reg = (reg, [])) := by
  constructor
  · intro h
    simp [handleSignalingMessage, h]
  · intro s hs hcase
    rcases hcase with ⟨h1, h2⟩ | ⟨h1, t, h2, h3⟩ | ⟨h1, h2, h3⟩
    · simp [handleSignalingMessage, hs, h1, h2]
    · simp [handleSignalingMessage, hs, h1, h2, h3]
    · simp [handleSignalingMessage, hs, h1, h2, h3]

theorem c7_witness :
    handleSignalingMessage (fun _ => true) 1 (SigMsg.mk SigType.offer "q" "x")
        [("p", Session.mk 1 none "a" 10 0)] =
      ([("p", Session.mk 1 none "a" 10 0)], [(1, OutMsg.sessionNotFound)]) ∧
      handleSignalingMessage (fun _ => false) 1 (SigMsg.mk SigType.answer "p" "y")
          [("p", Session.mk 1 (some 2) "a" 10 0)] =
        ([("p", Session.mk 1 (some 2) "a" 10 0)], []) := by
  constructor
  · exact (c7_signaling_error_paths (fun _ => true) 1
      (SigMsg.mk SigType.offer "q" "x") [("p", Session.mk 1 none "a" 10 0)]).1
      (by simp [mapGet])
  · exact (c7_signaling_error_paths (fun _ => false) 1
      (SigMsg.mk SigType.answer "p" "y")
      [("p", Session.mk 1 (some 2) "a" 10 0)]).2
      (Session.mk 1 (some 2) "a" 10 0) (by simp [mapGet])
      (Or.inr (Or.inl ⟨rfl, 2, rfl, rfl⟩))

/-- C10: a signaling message carrying the pin of an existing session but
sent from an endpoint that is neither its initiator nor its responder is
silently dropped: nothing is forwarded, the sender gets no reply, and the
registry is unchanged. -/
theorem c10_nonmember_silent_drop (rs : Nat → Bool) (ws : Nat) (m : SigMsg)
    (reg : SessionMap) (s : Session) (h : mapGet m.pin reg = some s)
    (hs : s.sender ≠ ws) (hr : s.receiver ≠ some ws) :
    handleSignalingMessage rs ws m reg = (reg, []) := by
  simp [handleSignalingMessage, h, hs, hr]

theorem c10_witness :
    handleSignalingMessage (fun _ => true) 3 (SigMsg.mk SigType.iceCandidate "p" "z")
        [("p", Session.mk 1 (some 2) "a" 10 0)] =
      ([("p", Session.mk 1 (some 2) "a" 10 0)], []) :=
  c10_nonmember_silent_drop (fun _ => true) 3 (SigMsg.mk SigType.iceCandidate "p" "z")
    [("p", Session.mk 1 (some 2) "a" 10 0)] (Session.mk 1 (some 2) "a" 10 0)
    (by simp [mapGet]) (by decide) (by decide)

/-- C2 counterexample: a join on an open session whose initiator's channel
is not OPEN succeeds, but the initiator is NOT notified with
`receiver-joined` — refuting the unconditional "the initiator is notified"
part of the claim. -/
theorem c2_closed_initiator_cex :
    (handleJoinSession (fun _ => false) 2 "p"
        [("p", Session.mk 1 none "a.txt" 10 0)]).2 =
      [(2, OutMsg.sessionJoined "a.txt" 10)] ∧
      (1, OutMsg.receiverJoined "a.txt" 10) ∉
        (handleJoinSession (fun _ => false) 2 "p"
          [("p", Session.mk 1 none "a.txt" 10 0)]).2 := by
  constructor
  · simp [handleJoinSession, mapGet]
  · simp [handleJoinSession, mapGet]

/-- C2 (amended): unknown pin → `session-not-found`; responder already
bound → `session-full`; otherwise the endpoint is bound as responder, the
joiner receives `session-joined` with the metadata stored at creation, and
the initiator receives `receiver-joined` with the same metadata if and only
if the initiator's channel is currently open. -/
theorem c2_joinSession_paths (rs : Nat → Bool) (ws : Nat) (pin : String)
    (reg : SessionMap) :
    (mapGet pin reg = none →
      handleJoinSession rs ws pin reg = (reg, [(ws, OutMsg.sessionNotFound)])) ∧
    (∀ s r, mapGet pin reg = some s → s.receiver = some r →
      handleJoinSession rs ws pin reg = (reg, [(ws, OutMsg.sessionFull)])) ∧
    (∀ s, mapGet pin reg = some s → s.receiver = none →
      mapGet pin (handleJoinSession rs ws pin reg).1 =
          some (Session.mk s.sender (some ws) s.fileName s.fileSize s.created) ∧
        (ws, OutMsg.sessionJoined s.fileName s.fileSize) ∈
          (handleJoinSession rs ws pin reg).2 ∧
        ((s.sender, OutMsg.receiverJoined s.fileName s.fileSize) ∈
            (handleJoinSession rs ws pin reg).2 ↔ rs s.sender = true)) := by
  refine ⟨?_, ?_, ?_⟩
  · intro h
    simp [handleJoinSession, h]
  · intro s r hs hr
    simp [handleJoinSession, hs, hr]
  · intro s hs hr
    refine ⟨?_, ?_, ?_⟩
    · simp [handleJoinSession, hs, hr, mapGet_mapSet_self]
    · by_cases hsend : rs s.sender <;> simp [handleJoinSession, hs, hr, hsend]
    · by_cases hsend : rs s.sender <;> simp [handleJoinSession, hs, hr, hsend]

theorem c2_witness :
    handleJoinSession (fun _ => true) 2 "q" [("p", Session.mk 1 none "a.txt" 10 0)] =
        ([("p", Session.mk 1 none "a.txt" 10 0)], [(2, OutMsg.sessionNotFound)]) ∧
      handleJoinSession (fun _ => true) 3 "p" [("p", Session.mk 1 (some 2) "a.txt" 10 0)] =
        ([("p", Session.mk 1 (some 2) "a.txt" 10 0)], [(3, OutMsg.sessionFull)]) ∧
      mapGet "p" (handleJoinSession (fun _ => true) 2 "p"
          [("p", Session.mk 1 none "a.txt" 10 0)]).1 =
        some (Session.mk 1 (some 2) "a.txt" 10 0) := by
  refine ⟨?_, ?_, ?_⟩
  · exact (c2_joinSession_paths (fun _ => true) 2 "q"
      [("p", Session.mk 1 none "a.txt" 10 0)]).1 (by simp [mapGet])
  · exact (c2_joinSession_paths (fun _ => true) 3 "p"
      [("p", Session.mk 1 (some 2) "a.txt" 10 0)]).2.1
      (Session.mk 1 (some 2) "a.txt" 10 0) 2 (by simp [mapGet]) rfl
  · exact ((c2_joinSession_paths (fun _ => true) 2 "p"
      [("p", Session.mk 1 none "a.txt" 10 0)]).2.2
      (Session.mk 1 none "a.txt" 10 0) (by simp [mapGet]) rfl).1

/-- C3 counterexample: a sweep invoked exactly at `t = T + M` (here
`T = 0`, `M = 3600000`) keeps the session, because the source deletes only
when `now - created > maxAge` (strict) — refuting "removed whenever
`t ≥ T + M`". -/
theorem c3_boundary_cex :
    mapGet "p" (sweepSessions maxSessionAge 3600000
        [("p", Session.mk 1 none "a.txt" 10 0)]) =
      some (Session.mk 1 none "a.txt" 10 0) := by
  simp [sweepSessions, maxSessionAge, List.filter, mapGet]

/-- C3 (amended): for a session created at time T and a sweep with max-age
M at time t, the session is removed whenever `t > T + M` and retained
whenever `t ≤ T + M` (the source comparison is strict). -/
theorem c3_sweep_expiry (M now : Int) (reg : SessionMap) (pin : String)
    (s : Session) (hnd : (mapKeys reg).Nodup) (h : mapGet pin reg = some s) :
    (now > s.created + M → mapGet pin (sweepSessions M now reg) = none) ∧
      (now ≤ s.created + M → mapGet pin (sweepSessions M now reg) = some s) := by
  constructor
  · intro hgt
    unfold sweepSessions
    rw [mapGet_filter_nodup pin s _ reg hnd h]
    have hc : now - s.created > M := by omega
    simp [hc]
  · intro hle
    unfold sweepSessions
    rw [mapGet_filter_nodup pin s _ reg hnd h]
    have hc : ¬ (now - s.created > M) := by omega
    simp [hc]

theorem c3_witness :
    mapGet "p" (sweepSessions 10 20 [("p", Session.mk 1 none "a" 1 0)]) = none ∧
      mapGet "q" (sweepSessions 10 20 [("q", Session.mk 1 none "a" 1 15)]) =
        some (Session.mk 1 none "a" 1 15) := by
  constructor
  · exact (c3_sweep_expiry 10 20 [("p", Session.mk 1 none "a" 1 0)] "p"
      (Session.mk 1 none "a" 1 0) (by simp [mapKeys]) (by simp [mapGet])).1
      (by norm_num)
  · exact (c3_sweep_expiry 10 20 [("q", Session.mk 1 none "a" 1 15)] "q"
      (Session.mk 1 none "a" 1 15) (by simp [mapKeys]) (by simp [mapGet])).2
      (by norm_num)

/-- C4 counterexample: in a paired session whose responder's channel is not
OPEN, a signaling message from the initiator is delivered to nobody —
refuting the unconditional "a message sent by the initiator is delivered to
the responder". -/
theorem c4_closed_peer_cex :
    (handleSignalingMessage (fun _ => false) 1
        (SigMsg.mk SigType.offer "p" "sdp")
        [("p", Session.mk 1 (some 2) "a.txt" 10 0)]).2 = [] := by
  simp [handleSignalingMessage, mapGet]

/-- C4 (amended): for a paired session with distinct initiator and
responder, forwarding is peer-symmetric and verbatim whenever the peer's
channel is open: a message from the initiator reaches exactly the
responder, one from the responder reaches exactly the initiator, and the
delivered record is the very record submitted; the registry is untouched. -/
theorem c4_forward_symmetric (rs : Nat → Bool) (m : SigMsg) (reg : SessionMap)
    (a b : Nat) (fn : String) (fs : Nat) (cr : Int)
    (h : mapGet m.pin reg = some (Session.mk a (some b) fn fs cr))
    (hab : a ≠ b) :
    (rs b = true →
      handleSignalingMessage rs a m reg = (reg, [(b, OutMsg.forwarded m)])) ∧
    (rs a = true →
      handleSignalingMessage rs b m reg = (reg, [(a, OutMsg.forwarded m)])) := by
  constructor
  · intro hb
    simp [handleSignalingMessage, h, hb]
  · intro ha
    have hba : ¬ (a = b) := hab
    simp [handleSignalingMessage, h, hba, ha]

theorem c4_witness :
    handleSignalingMessage (fun _ => true) 1 (SigMsg.mk SigType.offer "p" "sdp")
        [("p", Session.mk 1 (some 2) "a.txt" 10 0)] =
      ([("p", Session.mk 1 (some 2) "a.txt" 10 0)],
        [(2, OutMsg.forwarded (SigMsg.mk SigType.offer "p" "sdp"))]) ∧
      handleSignalingMessage (fun _ => true) 2 (SigMsg.mk SigType.answer "p" "ans")
          [("p", Session.mk 1 (some 2) "a.txt" 10 0)] =
        ([("p", Session.mk 1 (some 2) "a.txt" 10 0)],
          [(1, OutMsg.forwarded (SigMsg.mk SigType.answer "p" "ans"))]) := by
  constructor
  · exact (c4_forward_symmetric (fun _ => true) (SigMsg.mk SigType.offer "p" "sdp")
      [("p", Session.mk 1 (some 2) "a.txt" 10 0)] 1 2 "a.txt" 10 0
      (by simp [mapGet]) (by decide)).1 rfl
  · exact (c4_forward_symmetric (fun _ => true) (SigMsg.mk SigType.answer "p" "ans")
      [("p", Session.mk 1 (some 2) "a.txt" 10 0)] 1 2 "a.txt" 10 0
      (by simp [mapGet]) (by decide)).2 rfl

theorem mapGet_sweepSessions (M now : Int) (reg : SessionMap) (pin : String)
    (s : Session) (hnd : (mapKeys reg).Nodup) (h : mapGet pin reg = some s) :
    mapGet pin (sweepSessions M now reg) =
      if now - s.created > M then none else some s := by
  unfold sweepSessions
  rw [mapGet_filter_nodup pin s _ reg hnd h]
  by_cases hc : now - s.created > M <;> simp [hc]

theorem mem_mapSet_same (pin : String) (s : Session) (m : SessionMap) :
    (pin, s) ∈ mapSet pin s m :=
  mapGet_mem pin s _ (mapGet_mapSet_self pin s m)

theorem mem_mapSet_of_ne (q : String) (u : Session) (pin : String) (s : Session)
    (m : SessionMap) (hq : q ≠ pin) (h : (q, u) ∈ m) : (q, u) ∈ mapSet pin s m := by
  induction m with
  | nil => simp at h
  | cons hd tl ih =>
    obtain ⟨p, t⟩ := hd
    by_cases hp : pin = p
    · subst hp
      rcases List.mem_cons.mp h with h1 | h1
      · exact absurd (congrArg Prod.fst h1) hq
      · simp only [mapSet, if_pos rfl]
        exact List.mem_cons_of_mem _ h1
    · rcases List.mem_cons.mp h with h1 | h1
      · simp only [mapSet, if_neg hp]
        exact h1 ▸ List.mem_cons_self _ _
      · simp only [mapSet, if_neg hp]
        exact List.mem_cons_of_mem _ (ih h1)

theorem two_le_length_of_mem_of_mem {α : Type} {a b : α} {l : List α}
    (ha : a ∈ l) (hb : b ∈ l) (hne : a ≠ b) : 2 ≤ l.length := by
  rcases l with _ | ⟨x, l2⟩
  · simp at ha
  · rcases l2 with _ | ⟨y, l3⟩
    · simp at ha hb
      subst ha
      subst hb
      exact absurd rfl hne
    · simp [List.length_cons]

theorem mapGet_handleClose_none (ws : Nat) (pin : String) (s : Session) :
    ∀ (reg : SessionMap), (mapKeys reg).Nodup → mapGet pin reg = some s →
      boundTo ws s = true →
      (reg.filter (fun x => boundTo ws x.2)).length ≤ 1 →
      mapGet pin (handleClose ws reg) = none := by
  intro reg
  induction reg with
  | nil =>
    intro _ h _ _
    simp [mapGet] at h
  | cons hd tl ih =>
    intro hnd h hb huniq
    obtain ⟨p, t⟩ := hd
    rw [mapKeys_cons] at hnd
    have hnd' := List.nodup_cons.mp hnd
    by_cases hbt : t.sender = ws ∨ t.receiver = some ws
    · by_cases hp : pin = p
      · subst hp
        simp only [handleClose, if_pos hbt]
        exact mapGet_eq_none_of_not_mem_keys pin tl hnd'.1
      · exfalso
        simp [mapGet, hp] at h
        have hmem : (pin, s) ∈ tl := mapGet_mem pin s tl h
        have hmemf : (pin, s) ∈ tl.filter (fun x => boundTo ws x.2) :=
          List.mem_filter.mpr ⟨hmem, hb⟩
        have hlen : 1 ≤ (tl.filter (fun x => boundTo ws x.2)).length :=
          List.length_pos.mpr (List.ne_nil_of_mem hmemf)
        have hbthead : boundTo ws t = true := by
          simp [boundTo]
          tauto
        have hfc : List.filter (fun x => boundTo ws x.2) ((p, t) :: tl) =
            (p, t) :: List.filter (fun x => boundTo ws x.2) tl := by
          simp [List.filter, hbthead]
        rw [hfc, List.length_cons] at huniq
        omega
    · by_cases hp : pin = p
      · subst hp
        exfalso
        simp [mapGet] at h
        subst h
        simp only [boundTo, Bool.or_eq_true, decide_eq_true_eq] at hb
        rcases hb with h1 | h1
        · exact hbt (Or.inl h1)
        · apply hbt
          right
          simpa using h1
      · simp only [handleClose, if_neg hbt, mapGet, if_neg hp]
        apply ih hnd'.2
        · simpa [mapGet, hp] using h
        · exact hb
        · have hbthead : boundTo ws t = false := by
            simp only [boundTo, Bool.or_eq_false_iff]
            constructor
            · simpa using fun hc => hbt (Or.inl hc)
            · simpa using fun hc => hbt (Or.inr hc)
          simpa [List.filter, hbthead] using huniq

/-- C5 counterexample: an endpoint bound (as initiator) to two live
sessions; processing its close event removes only the first one, session
`"q"` stays in the registry still binding the closed endpoint, and a
subsequent signaling message for pin `"q"` is NOT answered with
`session-not-found`. -/
theorem c5_second_session_cex :
    handleClose 1 [("p", Session.mk 1 none "a" 10 0),
        ("q", Session.mk 1 none "b" 20 0)] =
      [("q", Session.mk 1 none "b" 20 0)] ∧
      mapGet "q" (handleClose 1 [("p", Session.mk 1 none "a" 10 0),
          ("q", Session.mk 1 none "b" 20 0)]) =
        some (Session.mk 1 none "b" 20 0) ∧
      (handleSignalingMessage (fun _ => true) 1 (SigMsg.mk SigType.offer "q" "x")
          (handleClose 1 [("p", Session.mk 1 none "a" 10 0),
            ("q", Session.mk 1 none "b" 20 0)])).2 ≠
        [(1, OutMsg.sessionNotFound)] := by
  refine ⟨?_, ?_, ?_⟩
  · simp [handleClose]
  · simp [handleClose, mapGet]
  · simp [handleClose, handleSignalingMessage, mapGet]

/-- C5 (amended): the close handler removes the first session in registry
order bound to the closing endpoint; when that endpoint is bound to at most
one session, no session keyed by that session's pin remains, so every
subsequent signaling message for that pin is answered `session-not-found`. -/
theorem c5_close_cleanup (ws : Nat) (reg : SessionMap) (pin : String)
    (s : Session) (hnd : (mapKeys reg).Nodup) (h : mapGet pin reg = some s)
    (hb : boundTo ws s = true)
    (huniq : (reg.filter (fun x => boundTo ws x.2)).length ≤ 1) :
    mapGet pin (handleClose ws reg) = none ∧
      ∀ (rs : Nat → Bool) (w : Nat) (m : SigMsg), m.pin = pin →
        handleSignalingMessage rs w m (handleClose ws reg) =
          (handleClose ws reg, [(w, OutMsg.sessionNotFound)]) := by
  have hnone : mapGet pin (handleClose ws reg) = none :=
    mapGet_handleClose_none ws pin s reg hnd h hb huniq
  refine ⟨hnone, ?_⟩
  intro rs w m hm
  simp [handleSignalingMessage, hm, hnone]

theorem c5_witness :
    mapGet "p" (handleClose 1 [("p", Session.mk 1 (some 2) "a" 10 0)]) = none ∧
      ∀ (rs : Nat → Bool) (w : Nat) (m : SigMsg), m.pin = "p" →
        handleSignalingMessage rs w m
            (handleClose 1 [("p", Session.mk 1 (some 2) "a" 10 0)]) =
          (handleClose 1 [("p", Session.mk 1 (some 2) "a" 10 0)],
            [(w, OutMsg.sessionNotFound)]) :=
  c5_close_cleanup 1 [("p", Session.mk 1 (some 2) "a" 10 0)] "p"
    (Session.mk 1 (some 2) "a" 10 0) (by simp [mapKeys]) (by simp [mapGet])
    (by decide) (by decide)

/-- C6: once a session's responder is set it is never reassigned: any
further join on that pin fails with `session-full` and leaves the registry
completely unchanged, and no event of the system maps that pin to a session
other than the existing record — the session either survives untouched or
is removed whole. -/
theorem c6_responder_immutable (rs : Nat → Bool) (e : Event) (reg : SessionMap)
    (pin : String) (s : Session) (hnd : (mapKeys reg).Nodup)
    (h : mapGet pin reg = some s) (hr : s.receiver.isSome = true) :
    (∀ w, handleJoinSession rs w pin reg = (reg, [(w, OutMsg.sessionFull)])) ∧
      (mapGet pin (step rs e reg).1 = some s ∨
        mapGet pin (step rs e reg).1 = none) := by
  obtain ⟨r, hrr⟩ := Option.isSome_iff_exists.mp hr
  constructor
  · intro w
    simp [handleJoinSession, h, hrr]
  · rcases e with ⟨ws, pin2, fn, fs, now⟩ | ⟨ws, pin2⟩ | ⟨ws, m⟩ | ws | ⟨M, now⟩
    · by_cases hhas : mapHas pin2 reg
      · left
        simp [step, handleCreateSession, hhas, h]
      · have hne : pin ≠ pin2 := by
          intro hq
          subst hq
          simp [mapHas, h] at hhas
        left
        simp [step, handleCreateSession, hhas,
          mapGet_mapSet_ne pin pin2 _ reg hne, h]
    · rcases hget : mapGet pin2 reg with _ | s2
      · left
        simp [step, handleJoinSession, hget, h]
      · rcases hrec : s2.receiver with _ | r2
        · have hne : pin ≠ pin2 := by
            intro hq
            subst hq
            rw [h] at hget
            injection hget with hg
            subst hg
            rw [hrr] at hrec
            exact Option.noConfusion hrec
          left
          simp [step, handleJoinSession, hget, hrec,
            mapGet_mapSet_ne pin pin2 _ reg hne, h]
        · left
          simp [step, handleJoinSession, hget, hrec, h]
    · left
      simp [step, signal_fst, h]
    · rcases mapGet_handleClose_or ws pin reg hnd with h1 | h1
      · left
        simpa [step, h] using h1
      · right
        simpa [step] using h1
    · rw [show (step rs (Event.sweep M now) reg).1 = sweepSessions M now reg
        from rfl, mapGet_sweepSessions M now reg pin s hnd h]
      by_cases hc : now - s.created > M <;> simp [hc]

theorem c6_witness :
    handleJoinSession (fun _ => true) 3 "p"
        [("p", Session.mk 1 (some 2) "a" 10 0)] =
      ([("p", Session.mk 1 (some 2) "a" 10 0)], [(3, OutMsg.sessionFull)]) ∧
      (mapGet "p" (step (fun _ => true) (Event.join 3 "p")
            [("p", Session.mk 1 (some 2) "a" 10 0)]).1 =
          some (Session.mk 1 (some 2) "a" 10 0) ∨
        mapGet "p" (step (fun _ => true) (Event.join 3 "p")
            [("p", Session.mk 1 (some 2) "a" 10 0)]).1 = none) := by
  have hh := c6_responder_immutable (fun _ => true) (Event.join 3 "p")
    [("p", Session.mk 1 (some 2) "a" 10 0)] "p" (Session.mk 1 (some 2) "a" 10 0)
    (by simp [mapKeys]) (by simp [mapGet]) rfl
  exact ⟨hh.1 3, hh.2⟩

/-- C8 counterexample: `handleCreateSession` replies `session-created` to
the requesting socket with no `readyState` check — here the requester's
channel is not open (`rs 1 = false`), yet the send is performed — refuting
"every reply is sent only if the destination's channel is open". -/
theorem c8_unconditional_reply_cex :
    (fun _ : Nat => false) 1 = false ∧
      (step (fun _ => false) (Event.create 1 "p" "a.txt" 10 0) []).2 =
        [(1, OutMsg.sessionCreated "p" "a.txt" 10)] :=
  ⟨rfl, rfl⟩

/-- C8 (amended): only the indirect sends — the `receiver-joined`
notification to the initiator and forwarded signaling payloads — are
guarded: such a message is sent only if its destination's channel is
currently open.  Replies addressed to the requesting socket itself
(`session-created`, `pin-taken`, `session-joined`, `session-not-found`,
`session-full`) are sent unconditionally. -/
theorem c8_guarded_sends_open (rs : Nat → Bool) (e : Event) (reg : SessionMap)
    (d : Nat) (msg : OutMsg) (hmem : (d, msg) ∈ (step rs e reg).2)
    (hg : isGuardedSend msg = true) : rs d = true := by
  rcases e with ⟨ws, pin, fn, fs, now⟩ | ⟨ws, pin⟩ | ⟨ws, m⟩ | ws | ⟨M, now⟩
  · by_cases hh : mapHas pin reg
    · simp [step, handleCreateSession, hh, Prod.mk.injEq] at hmem
      rw [hmem.2] at hg
      simp [isGuardedSend] at hg
    · simp [step, handleCreateSession, hh, Prod.mk.injEq] at hmem
      rw [hmem.2] at hg
      simp [isGuardedSend] at hg
  · rcases hget : mapGet pin reg with _ | s
    · simp [step, handleJoinSession, hget, Prod.mk.injEq] at hmem
      rw [hmem.2] at hg
      simp [isGuardedSend] at hg
    · rcases hrec : s.receiver with _ | r
      · by_cases hsend : rs s.sender
        · simp [step, handleJoinSession, hget, hrec, hsend, Prod.mk.injEq]
            at hmem
          rcases hmem with ⟨hd, _⟩ | ⟨_, hmsg⟩
          · rw [hd]
            exact hsend
          · rw [hmsg] at hg
            simp [isGuardedSend] at hg
        · simp [step, handleJoinSession, hget, hrec, hsend, Prod.mk.injEq]
            at hmem
          rw [hmem.2] at hg
          simp [isGuardedSend] at hg
      · simp [step, handleJoinSession, hget, hrec, Prod.mk.injEq] at hmem
        rw [hmem.2] at hg
        simp [isGuardedSend] at hg
  · rcases hget : mapGet m.pin reg with _ | s
    · simp [step, handleSignalingMessage, hget, Prod.mk.injEq] at hmem
      rw [hmem.2] at hg
      simp [isGuardedSend] at hg
    · by_cases h1 : s.sender = ws
      · rcases hrec : s.receiver with _ | t
        · simp [step, handleSignalingMessage, hget, h1, hrec] at hmem
        · by_cases hrt : rs t
          · simp [step, handleSignalingMessage, hget, h1, hrec, hrt,
              Prod.mk.injEq] at hmem
            rw [hmem.1]
            exact hrt
          · simp [step, handleSignalingMessage, hget, h1, hrec, hrt] at hmem
      · by_cases h2 : s.receiver = some ws
        · by_cases hrt : rs s.sender
          · simp [step, handleSignalingMessage, hget, h1, h2, hrt,
              Prod.mk.injEq] at hmem
            rw [hmem.1]
            exact hrt
          · simp [step, handleSignalingMessage, hget, h1, h2, hrt] at hmem
        · simp [step, handleSignalingMessage, hget, h1, h2] at hmem
  · simp [step] at hmem
  · simp [step] at hmem

theorem c8_witness : (fun _ : Nat => true) 1 = true :=
  c8_guarded_sends_open (fun _ => true) (Event.join 2 "p")
    [("p", Session.mk 1 none "a" 10 0)] 1 (OutMsg.receiverJoined "a" 10)
    (by simp [step, handleJoinSession, mapGet]) rfl

/-- C9: `createSession` never checks whether the requester is already bound
to a session — an endpoint that is already the initiator of a live session
can create a second one under a fresh pin, becoming initiator of two live
sessions at once, and the close-event cleanup then removes only the first
of them, leaving at least one session still binding the closed endpoint. -/
theorem c9_endpoint_multibound (e : Nat) (p1 p2 fn2 : String) (fs2 : Nat)
    (now : Int) (reg : SessionMap) (s1 : Session)
    (h1 : mapGet p1 reg = some s1) (hs : s1.sender = e)
    (h2 : mapGet p2 reg = none) :
    (handleCreateSession e p2 fn2 fs2 now reg).2 =
        [(e, OutMsg.sessionCreated p2 fn2 fs2)] ∧
      mapGet p1 (handleCreateSession e p2 fn2 fs2 now reg).1 = some s1 ∧
      mapGet p2 (handleCreateSession e p2 fn2 fs2 now reg).1 =
        some (Session.mk e none fn2 fs2 now) ∧
      1 ≤ ((handleClose e (handleCreateSession e p2 fn2 fs2 now reg).1).filter
          (fun x => boundTo e x.2)).length := by
  have hne : p1 ≠ p2 := by
    intro hq
    subst hq
    rw [h1] at h2
    exact Option.noConfusion h2
  have hh : mapHas p2 reg = false := by
    simp [mapHas, h2]
  have hfst : (handleCreateSession e p2 fn2 fs2 now reg).1 =
      mapSet p2 (Session.mk e none fn2 fs2 now) reg := by
    simp [handleCreateSession, hh]
  refine ⟨by simp [handleCreateSession, hh], ?_, ?_, ?_⟩
  · rw [hfst]
    rw [mapGet_mapSet_ne p1 p2 _ reg hne]
    exact h1
  · rw [hfst]
    exact mapGet_mapSet_self p2 _ reg
  · rw [hfst]
    have hm1 : (p1, s1) ∈ mapSet p2 (Session.mk e none fn2 fs2 now) reg :=
      mem_mapSet_of_ne p1 s1 p2 _ reg hne (mapGet_mem p1 s1 reg h1)
    have hm2 : (p2, Session.mk e none fn2 fs2 now) ∈
        mapSet p2 (Session.mk e none fn2 fs2 now) reg :=
      mem_mapSet_same p2 _ reg
    have hb1 : boundTo e s1 = true := by
      simp [boundTo, hs]
    have hb2 : boundTo e (Session.mk e none fn2 fs2 now) = true := by
      simp [boundTo]
    have hf1 : (p1, s1) ∈ (mapSet p2 (Session.mk e none fn2 fs2 now) reg).filter
        (fun x => boundTo e x.2) := List.mem_filter.mpr ⟨hm1, hb1⟩
    have hf2 : (p2, Session.mk e none fn2 fs2 now) ∈
        (mapSet p2 (Session.mk e none fn2 fs2 now) reg).filter
          (fun x => boundTo e x.2) := List.mem_filter.mpr ⟨hm2, hb2⟩
    have hpair : (p1, s1) ≠ (p2, Session.mk e none fn2 fs2 now) := by
      intro hq
      exact hne (congrArg Prod.fst hq)
    have h2le : 2 ≤ ((mapSet p2 (Session.mk e none fn2 fs2 now) reg).filter
        (fun x => boundTo e x.2)).length :=
      two_le_length_of_mem_of_mem hf1 hf2 hpair
    rw [filter_handleClose, List.length_drop]
    omega

theorem c9_witness :
    (handleCreateSession 7 "q" "b.txt" 5 3 [("p", Session.mk 7 none "a" 1 0)]).2 =
        [(7, OutMsg.sessionCreated "q" "b.txt" 5)] ∧
      mapGet "p" (handleCreateSession 7 "q" "b.txt" 5 3
          [("p", Session.mk 7 none "a" 1 0)]).1 = some (Session.mk 7 none "a" 1 0) ∧
      mapGet "q" (handleCreateSession 7 "q" "b.txt" 5 3
          [("p", Session.mk 7 none "a" 1 0)]).1 = some (Session.mk 7 none "b.txt" 5 3) ∧
      1 ≤ ((handleClose 7 (handleCreateSession 7 "q" "b.txt" 5 3
          [("p", Session.mk 7 none "a" 1 0)]).1).filter
            (fun x => boundTo 7 x.2)).length :=
  c9_endpoint_multibound 7 "p" "q" "b.txt" 5 3 [("p", Session.mk 7 none "a" 1 0)]
    (Session.mk 7 none "a" 1 0) (by simp [mapGet]) rfl (by simp [mapGet])
